import Mathlib

/-!
A verification development for the gene-panel parsing, validation and diff
engine of the PanelAppByIvan repository.  The Python sources are embedded
shallowly: strings are Lean `String`s, Python lists are Lean `List`s, Python
sets are modelled as deduplicated lists, exceptions are modelled with
`Except`, and `None`/string returns with `Option String`.  Python's
`str.strip`, `str.lower`, `str.isspace` and `sorted` (a stable sort) are
modelled character-wise with `Char.isWhitespace`, `Char.toLower` and
`List.insertionSort` (a stable sort).
-/

namespace PanelApp

/-! ## Character-level string helpers -/

/-- Remove leading whitespace characters (the leading half of Python `str.strip()`). -/
def dropLeadWS (l : List Char) : List Char := l.dropWhile Char.isWhitespace

/-- Remove trailing whitespace characters (the trailing half of Python `str.strip()`). -/
def dropTrailWS (l : List Char) : List Char := (l.reverse.dropWhile Char.isWhitespace).reverse

/-- Model of Python `str.strip()` with no arguments: whitespace removed from both ends. -/
def trimChars (l : List Char) : List Char := dropTrailWS (dropLeadWS l)

/-- Model of Python `s.strip()` on `String`. -/
def pyStrip (s : String) : String := ⟨trimChars s.data⟩

/-- Model of Python `s.lower()`: lower-case character by character. -/
def lowerStr (s : String) : String := ⟨s.data.map Char.toLower⟩

/-- Model of Python `any(ch.isspace() for ch in s)`. -/
def hasWS (s : String) : Bool := s.data.any Char.isWhitespace

/-- Model of Python `s.startswith("#")`. -/
def startsWithHash (s : String) : Bool := s.data.head? = some '#'

/-- Model of Python `s.endswith("\n")`: the last character is a newline. -/
def endsWithNL (s : String) : Bool := s.data.getLast? = some '\n'

/-- Python's `<` on strings, lexicographic by code point, expressed on the
character lists (`String.lt_iff_toList_lt` identifies it with `<` on
`String`). -/
def dataLt (a b : String) : Prop := a.data < b.data

instance : DecidableRel dataLt := fun a b => inferInstanceAs (Decidable (a.data < b.data))

/-- Python's `<=` on strings, expressed on the character lists
(`String.le_iff_toList_le` identifies it with `≤` on `String`). -/
def dataLe (a b : String) : Prop := a.data ≤ b.data

instance : DecidableRel dataLe := fun a b => inferInstanceAs (Decidable (a.data ≤ b.data))

/-- Split a character list at every newline character; a trailing newline
produces a trailing empty piece. -/
def splitNL : List Char → List (List Char)
  | [] => [[]]
  | c :: cs =>
    if c = '\n' then [] :: splitNL cs
    else
      match splitNL cs with
      | [] => [[c]]
      | l :: ls => (c :: l) :: ls

/-- Drop a final empty piece, if any. -/
def dropLastBlank : List String → List String
  | [] => []
  | [x] => if x = "" then [] else [x]
  | x :: y :: xs => x :: dropLastBlank (y :: xs)

/-- Model of Python `content.splitlines()` for newline-separated text.  This
also models iterating a file handle line by line followed by `rstrip("\n")`
on each line, as `read_panel` does: both enumerate the newline-terminated
lines, without a phantom empty line after a final newline. -/
def pySplitlines (s : String) : List String :=
  dropLastBlank ((splitNL s.data).map (fun l => ⟨l⟩))

/-- Model of reading a file with `encoding="utf-8-sig"`: one leading
byte-order mark, if present, is removed. -/
def stripSig (s : String) : String :=
  if s.data.head? = some '﻿' then ⟨s.data.tail⟩ else s

/-! ## `scripts/validate_panels.py` -/

/-- The message of `read_panel`'s missing-final-newline `ValidationError`. -/
def newlineErrMsg (fp : String) : String := fp ++ ": file must end with a newline\n"

/-- The message of `read_panel`'s whitespace-in-entry `ValidationError`. -/
def wsErrMsg (fp : String) (i : Nat) (line : String) : String :=
  fp ++ ":" ++ toString i ++ ": invalid entry '" ++ line ++ "' (contains whitespace)."

/-- The message of `read_panel`'s exact-duplicate `ValidationError`. -/
def dupErrMsg (fp : String) (i : Nat) (line : String) : String :=
  fp ++ ":" ++ toString i ++ ": duplicate gene '" ++ line ++ "' detected."

/-- The message of `read_panel`'s case-insensitive near-duplicate warning. -/
def caseWarnMsg (fp : String) (i : Nat) (line existing : String) : String :=
  fp ++ ":" ++ toString i ++ ": warning – gene '" ++ line ++
    "' differs only in case from '" ++ existing ++ "'."

/-- The inner `for existing in genes` loop of `read_panel`: raise on an exact
(case-sensitive) duplicate, collect a warning for each case-insensitive
near-duplicate.  Warnings gathered before a raise are discarded, as the
Python exception discards the local `warnings` list. -/
def dupScan (fp : String) (i : Nat) (line : String) : List String → Except String (List String)
  | [] => .ok []
  | g :: gs =>
    if g = line then .error (dupErrMsg fp i line)
    else if lowerStr g = lowerStr line then
      match dupScan fp i line gs with
      | .error e => .error e
      | .ok ws => .ok (caseWarnMsg fp i line g :: ws)
    else dupScan fp i line gs

/-- The per-line loop of `read_panel`, with the 1-based line counter, the
genes seen so far and the warnings collected so far. -/
def readLoop (fp : String) : Nat → List String → List String → List String →
    Except String (List String × List String)
  | _, genes, warnings, [] => .ok (genes, warnings)
  | i, genes, warnings, l :: ls =>
    let line := pyStrip l
    if line == "" || startsWithHash line then readLoop fp (i + 1) genes warnings ls
    else if hasWS line then .error (wsErrMsg fp i line)
    else
      match dupScan fp i line genes with
      | .error e => .error e
      | .ok ws => readLoop fp (i + 1) (genes ++ [line]) (warnings ++ ws) ls

/-- Model of `read_panel` in `scripts/validate_panels.py`: BOM-strip the raw
content, require a final newline on non-empty content, then scan the lines;
a `ValidationError` raise is the `Except.error` case. -/
def readPanel (fp rawContent : String) : Except String (List String × List String) :=
  let content := stripSig rawContent
  if content ≠ "" ∧ ¬ endsWithNL content then .error (newlineErrMsg fp)
  else readLoop fp 1 [] [] (pySplitlines content)

/-- The message of `validate_sorted`'s `ValidationError`; the Python source
concatenates two f-strings, mirrored by the two operands here. -/
def sortedErrMsg (fp gene : String) (pos : Nat) : String :=
  (fp ++ ": genes must be sorted alphabetically (case‑insensitive).") ++
    (" Found out‑of‑order entry '" ++ gene ++ "' at position " ++ toString pos ++ ".")

/-- The loop of `validate_sorted` after the first gene: `prev` is the
lower-cased key of the previous gene and `idx` the 0-based Python index of
the list head. -/
def validateSortedAux (fp : String) : String → Nat → List String → Option String
  | _, _, [] => none
  | prev, idx, g :: gs =>
    if dataLt (lowerStr g) prev then some (sortedErrMsg fp g (idx + 1))
    else validateSortedAux fp (lowerStr g) (idx + 1) gs

/-- Model of `validate_sorted` in `scripts/validate_panels.py`: `some` is a
raised `ValidationError`, `none` a normal return. -/
def validateSorted (fp : String) : List String → Option String
  | [] => none
  | g :: gs => validateSortedAux fp (lowerStr g) 1 gs

/-- The body of `main`'s per-file `try` block: `read_panel` then
`validate_sorted`, catching `ValidationError` into the error list.  Warnings
are kept only when `read_panel` returned normally, as in the source. -/
def processFile (fp content : String) : List String × List String :=
  match readPanel fp content with
  | .error e => ([e], [])
  | .ok (genes, ws) =>
    match validateSorted fp genes with
    | some e => ([e], ws)
    | none => ([], ws)

/-- The errors accumulated by `main` over a batch of (path, content) files. -/
def batchErrors : List (String × String) → List String
  | [] => []
  | (fp, c) :: fs => (processFile fp c).1 ++ batchErrors fs

/-- The warnings accumulated by `main` over a batch of (path, content) files. -/
def batchWarnings : List (String × String) → List String
  | [] => []
  | (fp, c) :: fs => (processFile fp c).2 ++ batchWarnings fs

/-- Model of `main`'s process exit status in `scripts/validate_panels.py`:
`sys.exit(1)` when any error was collected, a normal exit (status 0)
otherwise. -/
def mainExit (files : List (String × String)) : Nat :=
  if batchErrors files = [] then 0 else 1

/-! ## `panel_editor_app/app.py` -/

/-- Model of `parse_genes`: stripped, non-blank, non-comment lines in order. -/
def parseGenes (content : String) : List String :=
  ((pySplitlines content).map pyStrip).filter (fun l => !(l == "" || startsWithHash l))

/-- Model of `sorted(head_set - base_set)` where both operands are Python
sets of strings: `sorted` is stable, and on the distinct members of a set it
returns the unique ascending enumeration, here the stable insertion sort of
the deduplicated filtered list. -/
def pySortedSetDiff (a b : List String) : List String :=
  ((a.filter (fun g => !(b.contains g))).dedup).insertionSort dataLe

/-- The set-level core shared by `diff_genes` and `generate_diff`:
`added = head − base` and `removed = base − head`, each sorted ascending. -/
def pyDiff (base head : List String) : List String × List String :=
  (pySortedSetDiff head base, pySortedSetDiff base head)

/-- Model of `diff_genes` in `panel_editor_app/app.py`. -/
def diffGenes (original updated : String) : List String × List String :=
  pyDiff (parseGenes original) (parseGenes updated)

/-- The message of `validate_content`'s missing-final-newline branch. -/
def editorNewlineMsg : String := "File must end with a newline"

/-- The message of `validate_content`'s whitespace branch. -/
def editorWsMsg (i : Nat) (stripped : String) : String :=
  "Line " ++ toString i ++ ": '" ++ stripped ++ "' contains whitespace"

/-- The message of `validate_content`'s exact-duplicate branch. -/
def editorDupMsg (stripped : String) (i : Nat) : String :=
  "Duplicate gene '" ++ stripped ++ "' on line " ++ toString i

/-- The message of `validate_content`'s case-insensitive duplicate branch. -/
def editorCaseDupMsg (stripped s : String) (i : Nat) : String :=
  "Gene '" ++ stripped ++ "' duplicates '" ++ s ++ "' ignoring case at line " ++ toString i

/-- The message of `validate_content`'s sortedness branch. -/
def editorSortedMsg : String := "Genes must be sorted alphabetically (case-insensitive)"

/-- The per-line loop of `validate_content`: an early `return` of an error
message is `Except.error`; a completed loop returns the `seen` list. -/
def vcLoop : Nat → List String → List String → Except String (List String)
  | _, seen, [] => .ok seen
  | i, seen, l :: ls =>
    let stripped := pyStrip l
    if stripped == "" || startsWithHash stripped then vcLoop (i + 1) seen ls
    else if hasWS stripped then .error (editorWsMsg i stripped)
    else if seen.contains stripped then .error (editorDupMsg stripped i)
    else
      match seen.find? (fun s => lowerStr s == lowerStr stripped) with
      | some s => .error (editorCaseDupMsg stripped s i)
      | none => vcLoop (i + 1) (seen ++ [stripped]) ls

/-- Everything `validate_content` does after its final-newline check: the
line loop and then the whole-list sortedness comparison of the lower-cased
keys against `sorted(keys)`. -/
def contentChecks (content : String) : Option String :=
  match vcLoop 1 [] (pySplitlines content) with
  | .error e => some e
  | .ok seen =>
    let keys := seen.map lowerStr
    if keys ≠ keys.insertionSort dataLe then some editorSortedMsg else none

/-- Model of `validate_content` in `panel_editor_app/app.py`: `some` is an
early `return` of an error message, `none` the final `return None`. -/
def validateContent (content : String) : Option String :=
  if content ≠ "" ∧ ¬ endsWithNL content then some editorNewlineMsg
  else contentChecks content

/-- Model of `save_panel`'s `if not content.endswith("\n"): content += "\n"`
normalisation, applied before validation and diffing. -/
def pyNormalize (content : String) : String :=
  if endsWithNL content then content else content ++ "\n"

/-- Model of `save_panel`'s decision: the change is submitted (branch, commit
and pull request are created) only when validation returns no message. -/
def saveRouteSubmits (content : String) : Bool :=
  (validateContent (pyNormalize content)).isNone

/-! ## `app.py` (viewer) parser -/

/-- The state threaded through `parse_panel`'s line loop. -/
structure ParseState where
  metadata : List (String × String)
  genes : List String
  metadataSection : Bool
deriving DecidableEq

/-- Model of `line.lstrip("﻿")`: remove every leading byte-order mark. -/
def stripBOMall (s : String) : String := ⟨s.data.dropWhile (· == '﻿')⟩

/-- Model of `s.lstrip("#")`: remove every leading hash. -/
def dropHashes (s : String) : String := ⟨s.data.dropWhile (· == '#')⟩

/-- Model of Python `":" in s`. -/
def containsColon (s : String) : Bool := s.data.contains ':'

/-- The part before the first colon, first component of `s.split(":", 1)`. -/
def colonKey (s : String) : String := ⟨s.data.takeWhile (fun c => !(c == ':'))⟩

/-- The part after the first colon, second component of `s.split(":", 1)`. -/
def colonVal (s : String) : String := ⟨(s.data.dropWhile (fun c => !(c == ':'))).tail⟩

/-- Model of Python dict assignment `m[k] = v` on an insertion-ordered dict:
an existing key keeps its position and gets the new value, a new key is
appended. -/
def dictInsert (m : List (String × String)) (k v : String) : List (String × String) :=
  if m.any (fun p => p.1 == k) then m.map (fun p => if p.1 == k then (k, v) else p)
  else m ++ [(k, v)]

/-- One iteration of `parse_panel`'s `for raw_line in ...splitlines()` loop
in `app.py`, translated branch for branch (including the fall-through from
the no-colon metadata branch into the plain-comment `continue`). -/
def parseStep (st : ParseState) (rawLine : String) : ParseState :=
  let line := stripBOMall rawLine
  let stripped := pyStrip line
  if stripped == "" then st
  else if st.metadataSection && startsWithHash stripped then
    let content := pyStrip (dropHashes stripped)
    if containsColon content then
      { st with metadata := dictInsert st.metadata (pyStrip (colonKey content)) (pyStrip (colonVal content)) }
    else { st with metadataSection := false }
  else if startsWithHash stripped then st
  else { metadata := st.metadata, genes := st.genes ++ [stripped], metadataSection := false }

/-- Model of `parse_panel` in `app.py`: fold the line step over the lines of
the file, starting with empty metadata, no genes, and the metadata section
open. -/
def parsePanel (content : String) : List (String × String) × List String :=
  let st := (pySplitlines content).foldl parseStep ⟨[], [], true⟩
  (st.metadata, st.genes)

/-- A per-line step written directly from the specification's description of
the parser: blank lines are ignored and never end the metadata section; a
comment line while the section is open records a key/value pair (split on
the first colon, both sides trimmed) when its body has a colon and otherwise
ends the section and is skipped; comment lines after the section are
ignored; any other non-blank line is trimmed, appended to the genes and ends
the section.  No branch touches both `metadata` and `genes`. -/
def specStep (st : ParseState) (rawLine : String) : ParseState :=
  let stripped := pyStrip (stripBOMall rawLine)
  if stripped == "" then st
  else if startsWithHash stripped then
    if st.metadataSection then
      let body := pyStrip (dropHashes stripped)
      if containsColon body then
        { st with metadata := dictInsert st.metadata (pyStrip (colonKey body)) (pyStrip (colonVal body)) }
      else { st with metadataSection := false }
    else st
  else { metadata := st.metadata, genes := st.genes ++ [stripped], metadataSection := false }

/-- `parsePanel` as prescribed by the specification's step function. -/
def parsePanelSpec (content : String) : List (String × String) × List String :=
  let st := (pySplitlines content).foldl specStep ⟨[], [], true⟩
  (st.metadata, st.genes)

/-! ## `scripts/panel_diff.py` reporter -/

/-- Model of `", ".join(l)`. -/
def joinComma : List String → String
  | [] => ""
  | [x] => x
  | x :: y :: xs => x ++ ", " ++ joinComma (y :: xs)

/-- Model of `"\n".join(l)`. -/
def joinNL : List String → String
  | [] => ""
  | [x] => x
  | x :: y :: xs => x ++ "\n" ++ joinNL (y :: xs)

/-- The line-building loop of `generate_diff`, over already-fetched snapshots
`(file, base genes, head genes)`: files whose diff is empty are skipped,
otherwise a `## file` header, the non-empty `Added:`/`Removed:` lines and a
blank separator line are appended. -/
def reportLines : List (String × List String × List String) → List String
  | [] => []
  | (file, baseG, headG) :: rest =>
    let added := pySortedSetDiff headG baseG
    let removed := pySortedSetDiff baseG headG
    if added = [] ∧ removed = [] then reportLines rest
    else
      (["## " ++ file] ++
        (if added ≠ [] then ["Added: " ++ joinComma added] else []) ++
        (if removed ≠ [] then ["Removed: " ++ joinComma removed] else []) ++
        [""]) ++ reportLines rest

/-- Order of diff entries by file name, the key of `sorted(changed_files)`. -/
def fileLe (a b : String × List String × List String) : Prop := dataLe a.1 b.1

instance : DecidableRel fileLe := fun a b => inferInstanceAs (Decidable (dataLe a.1 b.1))

/-- Model of `generate_diff`: iterate the changed files in sorted order and
join the collected lines, or return the empty string when nothing changed. -/
def generateDiff (files : List (String × List String × List String)) : String :=
  let lines := reportLines (files.insertionSort fileLe)
  if lines = [] then "" else pyStrip (joinNL lines) ++ "\n"

/-- The canonical message `main` prints when the summary is empty. -/
def noChangesMsg : String := "No gene changes detected."

/-- Model of what `main` in `scripts/panel_diff.py` prints: the summary when
it is non-empty, the canonical no-change message otherwise. -/
def mainDiffOutput (files : List (String × List String × List String)) : String :=
  let summary := generateDiff files
  if summary ≠ "" then summary else noChangesMsg

/-! ## Orders used by the sortedness claims -/

/-- Comparison of genes by their lower-cased form, the key order of the
case-insensitive stable sort. -/
def leLower (a b : String) : Prop := lowerStr a ≤ lowerStr b

instance : DecidableRel leLower :=
  fun a b => decidable_of_iff ((lowerStr a).data ≤ (lowerStr b).data) String.le_iff_toList_le.symm

instance : IsTrans String leLower := ⟨fun _ _ _ hab hbc => le_trans hab hbc⟩

instance : IsTotal String leLower := ⟨fun a b => le_total (lowerStr a) (lowerStr b)⟩

/-! ## Order bridging lemmas -/

/-- The character-list comparison used in the embedding is `<` on `String`. -/
theorem dataLt_iff (a b : String) : dataLt a b ↔ a < b := String.lt_iff_toList_lt.symm

/-- The character-list comparison used in the embedding is `≤` on `String`. -/
theorem dataLe_iff (a b : String) : dataLe a b ↔ a ≤ b := String.le_iff_toList_le.symm

/-- The data of `"\n"`. -/
theorem nlData : ("\n" : String).data = ['\n'] := rfl

/-- `orderedInsert` depends only on the truth of the relation. -/
theorem orderedInsert_congr (r s : String → String → Prop) [DecidableRel r] [DecidableRel s]
    (hrs : ∀ a b, r a b ↔ s a b) (a : String) :
    ∀ l : List String, l.orderedInsert r a = l.orderedInsert s a
  | [] => rfl
  | b :: l => by
    simp only [List.orderedInsert]
    by_cases h : r a b
    · rw [if_pos h, if_pos ((hrs a b).mp h)]
    · rw [if_neg h, if_neg (fun hs => h ((hrs a b).mpr hs)), orderedInsert_congr r s hrs a l]

/-- `insertionSort` depends only on the truth of the relation. -/
theorem insertionSort_congr (r s : String → String → Prop) [DecidableRel r] [DecidableRel s]
    (hrs : ∀ a b, r a b ↔ s a b) :
    ∀ l : List String, l.insertionSort r = l.insertionSort s
  | [] => rfl
  | a :: l => by
    simp only [List.insertionSort, insertionSort_congr r s hrs l, orderedInsert_congr r s hrs]

/-- The embedding's sort is the insertion sort along `≤` on `String`. -/
theorem insertionSort_dataLe (l : List String) :
    l.insertionSort dataLe = l.insertionSort (· ≤ ·) :=
  insertionSort_congr _ _ dataLe_iff l

/-- A list of strings is a fixed point of `insertionSort r` exactly when it is
already sorted by `r`. -/
theorem eq_insertionSort_iff_sorted (r : String → String → Prop) [DecidableRel r]
    [IsTotal String r] [IsTrans String r] (l : List String) :
    l = l.insertionSort r ↔ l.Sorted r := by
  constructor
  · intro h
    rw [h]
    exact List.sorted_insertionSort r l
  · intro h
    exact (List.Sorted.insertionSort_eq h).symm

/-! ## Differ lemmas -/

/-- Membership in the model of `sorted(a_set - b_set)`. -/
theorem mem_pySortedSetDiff (a b : List String) (g : String) :
    g ∈ pySortedSetDiff a b ↔ g ∈ a ∧ g ∉ b := by
  simp [pySortedSetDiff, List.mem_insertionSort, List.mem_dedup, List.mem_filter]

/-- The model of `sorted(a_set - b_set)` is strictly ascending. -/
theorem sorted_pySortedSetDiff (a b : List String) : (pySortedSetDiff a b).Sorted (· < ·) := by
  have hnd : (pySortedSetDiff a b).Nodup :=
    ((List.perm_insertionSort dataLe _).nodup_iff).mpr (List.nodup_dedup _)
  have hs : (pySortedSetDiff a b).Sorted (· ≤ ·) := by
    unfold pySortedSetDiff
    rw [insertionSort_dataLe]
    exact List.sorted_insertionSort _ _
  exact hs.lt_of_le hnd

/-- C5: for every pair of base and head gene snapshots, the Differ returns
`added = head − base` and `removed = base − head` (case-sensitively), each a
strictly ascending (case-sensitive) lexicographically sorted sequence, and
each literally produced by an explicit sort applied to the set difference at
output time. -/
theorem c5_diff_membership_and_order (base head : List String) :
    (∀ g, g ∈ (pyDiff base head).1 ↔ g ∈ head ∧ g ∉ base) ∧
    (∀ g, g ∈ (pyDiff base head).2 ↔ g ∈ base ∧ g ∉ head) ∧
    (pyDiff base head).1.Sorted (· < ·) ∧
    (pyDiff base head).2.Sorted (· < ·) ∧
    (pyDiff base head).1 =
      ((head.filter (fun g => !(base.contains g))).dedup).insertionSort (· ≤ ·) ∧
    (pyDiff base head).2 =
      ((base.filter (fun g => !(head.contains g))).dedup).insertionSort (· ≤ ·) :=
  ⟨fun g => mem_pySortedSetDiff head base g, fun g => mem_pySortedSetDiff base head g,
    sorted_pySortedSetDiff head base, sorted_pySortedSetDiff base head,
    insertionSort_dataLe _, insertionSort_dataLe _⟩

/-- C6: the Differ is symmetric: `Diff(A, B).added = Diff(B, A).removed` and
`Diff(A, B).removed = Diff(B, A).added`; both components are the same
expression with the argument snapshots exchanged. -/
theorem c6_diff_symmetry (A B : List String) :
    (pyDiff A B).1 = (pyDiff B A).2 ∧ (pyDiff A B).2 = (pyDiff B A).1 :=
  ⟨rfl, rfl⟩

/-! ## Validator CLI exit status -/

/-- The accumulated batch error list is empty exactly when every file's
validation produced no error. -/
theorem batchErrors_eq_nil_iff (files : List (String × String)) :
    batchErrors files = [] ↔ ∀ f ∈ files, (processFile f.1 f.2).1 = [] := by
  induction files with
  | nil => simp [batchErrors]
  | cons f fs ih =>
    obtain ⟨fp, c⟩ := f
    simp [batchErrors, ih]

/-- C7: the validator CLI exits with status 0 exactly when zero errors were
accumulated across all files of the batch, equivalently when every single
file produced no error; warnings play no part in the exit status. -/
theorem c7_exit_zero_iff_no_errors (files : List (String × String)) :
    (mainExit files = 0 ↔ batchErrors files = []) ∧
    (mainExit files = 0 ↔ ∀ f ∈ files, (processFile f.1 f.2).1 = []) := by
  have h : mainExit files = 0 ↔ batchErrors files = [] := by
    unfold mainExit
    split_ifs with hb
    · simp [hb]
    · simp [hb]
  exact ⟨h, h.trans (batchErrors_eq_nil_iff files)⟩

/-! ## Editor save route -/

/-- C9: the editor's save route appends a trailing newline to any submitted
content that lacks one, so the normalised content always ends with a newline
and `validate_content` never takes its "File must end with a newline"
branch on that path: it always proceeds to the remaining checks. -/
theorem c9_save_route_newline_unreachable (c : String) :
    endsWithNL (pyNormalize c) = true ∧
    validateContent (pyNormalize c) = contentChecks (pyNormalize c) := by
  have h : endsWithNL (pyNormalize c) = true := by
    unfold pyNormalize
    split_ifs with hc
    · exact hc
    · simp [endsWithNL, String.data_append, nlData, List.getLast?_concat]
  refine ⟨h, ?_⟩
  unfold validateContent
  simp [h]

/-- C10: a content whose only flaw is a pair of tokens equal up to case is
rejected by the editor: `validate_content` returns the near-duplicate
message (not `None`), and the save route therefore re-renders the form
instead of submitting, treating the near-duplicate as a blocking error. -/
theorem c10_editor_blocks_case_insensitive_dup :
    lowerStr "ABC" = lowerStr "abc" ∧ "ABC" ≠ "abc" ∧
    validateContent "ABC\nabc\n" = some (editorCaseDupMsg "abc" "ABC" 2) ∧
    saveRouteSubmits "ABC\nabc\n" = false :=
  ⟨rfl, by decide, rfl, rfl⟩

/-! ## Reporter -/

/-- When every entry's diff is empty, the reporter's line loop collects
nothing. -/
theorem reportLines_eq_nil (l : List (String × List String × List String))
    (h : ∀ f ∈ l, pySortedSetDiff f.2.2 f.2.1 = [] ∧ pySortedSetDiff f.2.1 f.2.2 = []) :
    reportLines l = [] := by
  induction l with
  | nil => rfl
  | cons f rest ih =>
    obtain ⟨file, baseG, headG⟩ := f
    have hf := h _ (List.mem_cons_self ..)
    simp only [reportLines]
    rw [if_pos ⟨hf.1, hf.2⟩]
    exact ih fun f hf2 => h f (List.mem_cons_of_mem _ hf2)

/-- C8: when no changed file has a non-empty added or removed set, the diff
CLI prints the single canonical message "No gene changes detected." instead
of empty output. -/
theorem c8_empty_diff_message (files : List (String × List String × List String))
    (h : ∀ f ∈ files, pySortedSetDiff f.2.2 f.2.1 = [] ∧ pySortedSetDiff f.2.1 f.2.2 = []) :
    mainDiffOutput files = "No gene changes detected." := by
  have hr : reportLines (files.insertionSort fileLe) = [] :=
    reportLines_eq_nil _ fun f hf => h f ((List.mem_insertionSort fileLe).mp hf)
  unfold mainDiffOutput generateDiff
  simp [hr, noChangesMsg]

/-- Witness for C8: a one-file batch whose base and head snapshots agree
yields the canonical no-change message. -/
theorem c8_empty_diff_message_witness :
    (∀ f ∈ [("panels/a.txt", (["TP53"], ["TP53"]))],
      pySortedSetDiff f.2.2 f.2.1 = [] ∧ pySortedSetDiff f.2.1 f.2.2 = []) ∧
    mainDiffOutput [("panels/a.txt", (["TP53"], ["TP53"]))] = "No gene changes detected." :=
  ⟨by decide, c8_empty_diff_message _ (by decide)⟩

/-! ## Accumulation behaviour of the validators (claim C1) -/

/-- C1 is refuted: the file `"A B\nC\nC\n"` contains two distinct violations,
a whitespace-in-token error on line 1 and an exact duplicate on line 3 (the
second conjunct shows the validator itself flags the duplicate once the
whitespace line is removed); yet `read_panel` reports only the first
violation, and the editor's `validate_content` does the same — neither
result mentions the duplicate, so no single result reports both. -/
theorem c1_short_circuit_counterexample :
    readPanel "panels/demo.txt" "A B\nC\nC\n" = .error (wsErrMsg "panels/demo.txt" 1 "A B") ∧
    readPanel "panels/demo.txt" "C\nC\n" = .error (dupErrMsg "panels/demo.txt" 2 "C") ∧
    validateContent "A B\nC\nC\n" = some (editorWsMsg 1 "A B") ∧
    validateContent "C\nC\n" = some (editorDupMsg "C" 2) :=
  ⟨rfl, rfl, rfl, rfl⟩

/-- C1 as amended: within one file the validator stops at the first error —
its result carries at most one error message — while across files errors do
accumulate: the batch error list of a concatenation is the concatenation of
the batch error lists, so one file's errors never block the evaluation of
other files. -/
theorem c1_errors_accumulate_across_files_not_within :
    (∀ fs1 fs2 : List (String × String),
      batchErrors (fs1 ++ fs2) = batchErrors fs1 ++ batchErrors fs2) ∧
    (∀ fp content : String, ((processFile fp content).1).length ≤ 1) := by
  constructor
  · intro fs1 fs2
    induction fs1 with
    | nil => simp [batchErrors]
    | cons f fs ih =>
      obtain ⟨fp, c⟩ := f
      simp [batchErrors, ih]
  · intro fp content
    cases hr : readPanel fp content with
    | error e => simp [processFile, hr]
    | ok p =>
      obtain ⟨genes, ws⟩ := p
      cases hv : validateSorted fp genes <;> simp [processFile, hr, hv]

/-! ## Sortedness rule (claim C3) -/

/-- The adjacent-pair loop of `validate_sorted` accepts exactly the chains of
the lower-cased key order. -/
theorem validateSortedAux_none_iff (fp : String) :
    ∀ (gs : List String) (g : String) (idx : Nat),
      (validateSortedAux fp (lowerStr g) idx gs = none ↔ List.Chain' leLower (g :: gs))
  | [], g, idx => by simp [validateSortedAux]
  | g1 :: gs, g, idx => by
    rw [List.chain'_cons]
    simp only [validateSortedAux]
    by_cases h : dataLt (lowerStr g1) (lowerStr g)
    · rw [if_pos h]
      have hlt : lowerStr g1 < lowerStr g := (dataLt_iff _ _).mp h
      have hnle : ¬ leLower g g1 := fun hle => absurd hlt (not_lt.mpr hle)
      simp [hnle]
    · rw [if_neg h]
      have hle : leLower g g1 := not_lt.mp fun hlt => h ((dataLt_iff _ _).mpr hlt)
      rw [validateSortedAux_none_iff fp gs g1 (idx + 1)]
      simp [hle]

/-- `validate_sorted` accepts exactly the gene lists sorted by their
lower-cased keys. -/
theorem validateSorted_none_iff_sorted (fp : String) (genes : List String) :
    validateSorted fp genes = none ↔ genes.Sorted leLower := by
  cases genes with
  | nil => simp [validateSorted, List.sorted_nil]
  | cons g gs =>
    simp only [validateSorted]
    rw [validateSortedAux_none_iff fp gs g 1, List.chain'_iff_pairwise]
    exact Iff.rfl

/-- Every error `validate_sorted` can produce is a sortedness message. -/
theorem validateSortedAux_some (fp : String) :
    ∀ (gs : List String) (prev : String) (idx : Nat) (e : String),
      validateSortedAux fp prev idx gs = some e → ∃ g pos, e = sortedErrMsg fp g pos
  | [], _, _, e => by simp [validateSortedAux]
  | g :: gs, prev, idx, e => by
    simp only [validateSortedAux]
    by_cases h : dataLt (lowerStr g) prev
    · rw [if_pos h]
      intro he
      exact ⟨g, idx + 1, (Option.some_inj.mp he).symm⟩
    · rw [if_neg h]
      exact validateSortedAux_some fp gs (lowerStr g) (idx + 1) e

/-- Every sortedness message begins with the file-scoped statement that the
genes must be sorted case-insensitively. -/
theorem sortedErrMsg_data_prefix (fp g : String) (pos : Nat) :
    (fp ++ ": genes must be sorted alphabetically (case‑insensitive).").data <+:
      (sortedErrMsg fp g pos).data := by
  unfold sortedErrMsg
  rw [String.data_append]
  exact List.prefix_append _ _

/-- C3: `validate_sorted` reports no violation exactly when the gene list
equals its own case-insensitive stable sort (the insertion sort by
lower-cased key); the editor's whole-list comparison of the lower-cased keys
against their sort is equivalent to the same criterion; and any violation's
message is file-scoped, starting with the statement that the genes must be
sorted case-insensitively. -/
theorem c3_sorted_check_iff_stable_sort (fp : String) (genes : List String) :
    (validateSorted fp genes = none ↔ genes = genes.insertionSort leLower) ∧
    (genes.map lowerStr = (genes.map lowerStr).insertionSort dataLe ↔
      genes = genes.insertionSort leLower) ∧
    (∀ e ∈ validateSorted fp genes,
      (fp ++ ": genes must be sorted alphabetically (case‑insensitive).").data <+: e.data) := by
  have hfix : (genes = genes.insertionSort leLower) ↔ genes.Sorted leLower :=
    eq_insertionSort_iff_sorted leLower genes
  refine ⟨(validateSorted_none_iff_sorted fp genes).trans hfix.symm, ?_, ?_⟩
  · have h1 : (genes.map lowerStr = (genes.map lowerStr).insertionSort dataLe) ↔
        (genes.map lowerStr).Sorted (· ≤ ·) := by
      rw [insertionSort_dataLe]
      exact eq_insertionSort_iff_sorted _ _
    have h2 : (genes.map lowerStr).Sorted (· ≤ ·) ↔ genes.Sorted leLower := List.pairwise_map
    exact h1.trans (h2.trans hfix.symm)
  · intro e he
    cases genes with
    | nil => simp [validateSorted] at he
    | cons g gs =>
      have hsome : validateSortedAux fp (lowerStr g) 1 gs = some e := he
      obtain ⟨g', pos, hpe⟩ := validateSortedAux_some fp gs (lowerStr g) 1 e hsome
      rw [hpe]
      exact sortedErrMsg_data_prefix fp g' pos

/-- Witness for C3: an out-of-order list produces exactly one sortedness
message carrying the file-scoped statement. -/
theorem c3_sorted_check_iff_stable_sort_witness :
    validateSorted "p.txt" ["b", "A"] = some (sortedErrMsg "p.txt" "A" 2) ∧
    ("p.txt" ++ ": genes must be sorted alphabetically (case‑insensitive).").data <+:
      (sortedErrMsg "p.txt" "A" 2).data :=
  ⟨rfl, (c3_sorted_check_iff_stable_sort "p.txt" ["b", "A"]).2.2 _ rfl⟩

/-! ## Parser (claim C4) -/

/-- C4: every line step of `parse_panel` behaves exactly as the
specification's step prescribes — a `#`-line is recorded as a trimmed
key/value pair split at the first colon exactly when the metadata section is
still open and the comment body has a colon; a colon-free comment in the
section closes it and is skipped; blank lines change nothing (in particular
they never close the section); comments after the section are skipped; any
other non-blank line becomes a gene and closes the section — and no single
line ever extends both the metadata and the gene list; consequently the
whole-text parse coincides with the specification's parse. -/
theorem c4_parser_metadata_discipline :
    (∀ (st : ParseState) (line : String),
      parseStep st line = specStep st line ∧
      ((parseStep st line).metadata = st.metadata ∨ (parseStep st line).genes = st.genes)) ∧
    (∀ content : String, parsePanel content = parsePanelSpec content) := by
  have hstep : ∀ (st : ParseState) (line : String), parseStep st line = specStep st line := by
    intro st line
    obtain ⟨md, gs, sec⟩ := st
    cases sec <;>
      simp only [parseStep, specStep, Bool.false_and, Bool.true_and, if_false, if_true,
        Bool.false_eq_true] <;>
      split_ifs <;> rfl
  have hnb : ∀ (st : ParseState) (line : String),
      (specStep st line).metadata = st.metadata ∨ (specStep st line).genes = st.genes := by
    intro st line
    obtain ⟨md, gs, sec⟩ := st
    cases sec <;> simp only [specStep] <;> split_ifs <;> simp
  refine ⟨fun st line => ⟨hstep st line, ?_⟩, ?_⟩
  · rw [hstep st line]
    exact hnb st line
  · intro content
    unfold parsePanel parsePanelSpec
    have hfold : ∀ (l : List String) (st : ParseState),
        l.foldl parseStep st = l.foldl specStep st := by
      intro l
      induction l with
      | nil => intro st; rfl
      | cons x xs ih =>
        intro st
        rw [List.foldl_cons, List.foldl_cons, hstep, ih]
    rw [hfold]

/-! ## Exact-duplicate messages (claim C2) -/

/-- C2 is refuted: in `"A\nX\nA\n"` the token `A` first occurs on line 1, in
`"#c\nA\nA\n"` it first occurs on line 2, and in both files the duplicate
sits on line 3; both `read_panel` and the editor's `validate_content`
produce byte-identical messages for the two files, so the message cites the
current line number only and cannot cite the first occurrence's line
number. -/
theorem c2_dup_message_ignores_first_occurrence :
    readPanel "panels/demo.txt" "A\nX\nA\n" = .error (dupErrMsg "panels/demo.txt" 3 "A") ∧
    readPanel "panels/demo.txt" "#c\nA\nA\n" = .error (dupErrMsg "panels/demo.txt" 3 "A") ∧
    validateContent "A\nX\nA\n" = some (editorDupMsg "A" 3) ∧
    validateContent "#c\nA\nA\n" = some (editorDupMsg "A" 3) :=
  ⟨rfl, rfl, rfl, rfl⟩

/-- Splitting at a newline that terminates a newline-free chunk. -/
theorem splitNL_append (xs rest : List Char) (h : '\n' ∉ xs) :
    splitNL (xs ++ '\n' :: rest) = xs :: splitNL rest := by
  induction xs with
  | nil => simp [splitNL]
  | cons c cs ih =>
    have hc : ¬ c = '\n' := fun hh => h (by rw [hh]; exact List.mem_cons_self ..)
    have hcs : '\n' ∉ cs := fun hh => h (List.mem_cons_of_mem _ hh)
    rw [List.cons_append]
    simp only [splitNL]
    rw [if_neg hc, ih hcs]

/-- A gene token free of whitespace contains no newline. -/
theorem no_newline_of_hasWS (g : String) (h : hasWS g = false) : '\n' ∉ g.data := by
  intro hmem
  have h' : g.data.any Char.isWhitespace = false := h
  exact absurd (by decide) (List.any_eq_false.mp h' _ hmem)

/-- The line split of a two-line file built from a newline-free token. -/
theorem pySplitlines_double (g : String) (hnl : '\n' ∉ g.data) :
    pySplitlines (g ++ "\n" ++ g ++ "\n") = [g, g] := by
  have hd : (g ++ "\n" ++ g ++ "\n").data = g.data ++ '\n' :: (g.data ++ ['\n']) := by
    simp [String.data_append, nlData]
  unfold pySplitlines
  rw [hd, splitNL_append _ _ hnl, splitNL_append _ _ hnl]
  have hm : (g.data :: g.data :: splitNL []).map (fun l : List Char => (⟨l⟩ : String)) =
      [g, g, ""] := rfl
  rw [hm]
  rfl

/-- C2 as amended: an exact (same-case) duplicate produces one error whose
message cites the current line's 1-based number, and only that line number:
for any admissible gene token `g`, the two-line file repeating `g` fails
with exactly the message `fp:2: duplicate gene 'g' detected.`, which is a
function of the duplicate's own line alone — as the counterexample shows,
the first occurrence's line number does not appear. -/
theorem c2_dup_error_cites_current_line (fp g : String)
    (h1 : pyStrip g = g) (h2 : g ≠ "") (h3 : hasWS g = false)
    (h4 : startsWithHash g = false) (h5 : g.data.head? ≠ some '﻿') :
    readPanel fp (g ++ "\n" ++ g ++ "\n") = .error (dupErrMsg fp 2 g) := by
  have hnl : '\n' ∉ g.data := no_newline_of_hasWS g h3
  have hd : (g ++ "\n" ++ g ++ "\n").data = g.data ++ '\n' :: (g.data ++ ['\n']) := by
    simp [String.data_append, nlData]
  have hstrip : stripSig (g ++ "\n" ++ g ++ "\n") = g ++ "\n" ++ g ++ "\n" := by
    unfold stripSig
    rw [if_neg]
    rw [hd]
    cases hg : g.data with
    | nil => exact absurd (String.ext hg) h2
    | cons c t =>
      rw [hg] at h5
      simpa using h5
  have hend : endsWithNL (g ++ "\n" ++ g ++ "\n") = true := by
    have hgl : (g.data ++ '\n' :: (g.data ++ ['\n'])).getLast? = some '\n' := by
      rw [← List.cons_append, ← List.append_assoc]
      exact List.getLast?_concat _
    simp [endsWithNL, hd, hgl]
  have hgB : (g == "") = false := by
    rw [beq_eq_false_iff_ne]
    exact h2
  have hlines := pySplitlines_double g hnl
  unfold readPanel
  simp only [hstrip, hend, hlines]
  rw [if_neg (by simp)]
  simp [readLoop, dupScan, h1, hgB, h3, h4]

/-- Witness for C2's amended theorem at the token `BRCA1`. -/
theorem c2_dup_error_cites_current_line_witness :
    (pyStrip "BRCA1" = "BRCA1" ∧ "BRCA1" ≠ "" ∧ hasWS "BRCA1" = false ∧
      startsWithHash "BRCA1" = false ∧ ("BRCA1" : String).data.head? ≠ some '﻿') ∧
    readPanel "panels/demo.txt" ("BRCA1" ++ "\n" ++ "BRCA1" ++ "\n") =
      .error (dupErrMsg "panels/demo.txt" 2 "BRCA1") :=
  ⟨⟨rfl, by decide, rfl, rfl, by decide⟩,
    c2_dup_error_cites_current_line "panels/demo.txt" "BRCA1" rfl (by decide) rfl rfl (by decide)⟩

end PanelApp
